import Mathlib

/-!
Verification of the superlogs log-ingestion core (src/server/supervisor.ts).

The development shallowly embeds the parsing/pagination module:
strings are `List Char` (JS strings over the ASCII inputs at stake),
`fs.existsSync`/`fs.readFileSync` become a function `String → Option (List Char)`
(with `none` covering both a missing file and a read failure, which the source
maps to the same empty result shape), the JS `Date` comparisons become an
abstract type with two comparison oracles, and `JSON.parse` becomes an oracle
returning the fields the fastapi parser reads.  The anchored regular
expressions of the source are rendered as deterministic greedy prefix
matchers; for each of them greedy matching without backtracking agrees with
the backtracking JS engine because every quantified character class is
disjoint from the character that must follow it (the one `\d{1,2}` case is
argued at its definition).
-/

namespace Superlogs

/-- A JS string, modelled as its list of characters. -/
abbrev JSString := List Char

/-- The characters the source's regexes and `trim` treat as whitespace
(ASCII part of JS `\s`; the log lines at stake are ASCII). -/
def isJsSpace (c : Char) : Bool :=
  c = ' ' || c = '\t' || c = '\n' || c = '\r' || c = '\x0b' || c = '\x0c'

/-- JS `String.prototype.trim`. -/
def jsTrim (s : JSString) : JSString :=
  ((s.dropWhile isJsSpace).reverse.dropWhile isJsSpace).reverse

/-- JS `content.split('\n')`: the empty string splits to `[""]`, and a
trailing newline yields a trailing empty segment. -/
def splitLines : JSString → List JSString
  | [] => [[]]
  | c :: rest =>
    if c = '\n' then [] :: splitLines rest
    else
      match splitLines rest with
      | [] => [[c]]
      | l :: ls => (c :: l) :: ls

/-- JS `toLowerCase` restricted to ASCII (all inputs at stake are ASCII;
`Char.toLower` lowers exactly the ASCII uppercase range). -/
def toLowerStr (s : JSString) : JSString := s.map Char.toLower

/-- `needle` occurs at the start of `hay`. -/
def isPrefixList : JSString → JSString → Bool
  | [], _ => true
  | _ :: _, [] => false
  | c :: cs, d :: ds => c = d && isPrefixList cs ds

/-- JS `hay.includes(needle)`. -/
def includesSub (hay needle : JSString) : Bool :=
  match hay with
  | [] => needle.isEmpty
  | _ :: t => isPrefixList needle hay || includesSub t needle

/-- JS `line.startsWith(c)` for a one-character prefix. -/
def startsWithChar (c : Char) (s : JSString) : Bool :=
  match s with
  | [] => false
  | d :: _ => d = c

/-- JS `line.endsWith(c)` for a one-character suffix. -/
def endsWithChar (c : Char) (s : JSString) : Bool :=
  match s.getLast? with
  | some d => d = c
  | none => false

/-- Regex `\d` (JS: exactly the ASCII digits). -/
def isDigit (c : Char) : Bool := '0' ≤ c && c ≤ '9'

/-- Regex `[A-Za-z]`; with the `/i` flag the source's `[A-Z]` and `[a-z]`
classes both come to this. -/
def isAsciiLetter (c : Char) : Bool :=
  ('A' ≤ c && c ≤ 'Z') || ('a' ≤ c && c ≤ 'z')

/-- Regex `\w`. -/
def isWordChar (c : Char) : Bool := isAsciiLetter c || isDigit c || c = '_'

/-- Regex `[\w.]` (the logger-name class of the python-logging pattern). -/
def isLoggerChar (c : Char) : Bool := isWordChar c || c = '.'

/-- An anchored prefix matcher: on success returns the consumed prefix and
the remainder of the input. -/
def PMatch := JSString → Option (JSString × JSString)

/-- Match one character satisfying `f`. -/
def pPred (f : Char → Bool) : PMatch := fun s =>
  match s with
  | [] => none
  | c :: rest => if f c then some ([c], rest) else none

/-- Match one literal character. -/
def pChar (c : Char) : PMatch := fun s =>
  match s with
  | [] => none
  | d :: rest => if d = c then some ([d], rest) else none

/-- Sequencing of two matchers. -/
def pSeq (p q : PMatch) : PMatch := fun s =>
  match p s with
  | none => none
  | some (a, r) =>
    match q r with
    | none => none
    | some (b, r2) => some (a ++ b, r2)

/-- Ordered alternation, first branch wins (JS `|`). -/
def pAlt (p q : PMatch) : PMatch := fun s =>
  match p s with
  | none => q s
  | some x => some x

/-- Regex `(?: ... )?`: attempt the group, consume nothing on failure. -/
def pOpt (p : PMatch) : PMatch := fun s =>
  match p s with
  | none => some ([], s)
  | some x => some x

/-- Regex `c{n}` for a character class. -/
def pCount (f : Char → Bool) : Nat → PMatch
  | 0 => fun s => some ([], s)
  | n + 1 => pSeq (pPred f) (pCount f n)

/-- Regex `c+`, greedy.  In every use below the following regex atom is
disjoint from the class `f`, so greediness without backtracking agrees with
the JS engine. -/
def pPlus (f : Char → Bool) : PMatch := fun s =>
  let taken := s.takeWhile f
  if taken.isEmpty then none else some (taken, s.dropWhile f)

/-- Regex `\d{1,2}` as used in the syslog pattern, greedy.  There it is
followed by `\s+`; whenever the greedy two-digit take fails the required
whitespace, the backtracking one-digit take faces a digit and fails as well,
so the deterministic version agrees with JS. -/
def pOneOrTwo (f : Char → Bool) : PMatch := fun s =>
  match s with
  | [] => none
  | c :: rest =>
    if f c then
      match rest with
      | d :: rest2 => if f d then some ([c, d], rest2) else some ([c], rest)
      | [] => some ([c], [])
    else none

/-- The common `\d{4}-\d{2}-\d{2}\s+\d{2}:\d{2}:\d{2}` core of the
space-separated timestamp patterns. -/
def dateTimePat : PMatch :=
  pSeq (pCount isDigit 4) (pSeq (pChar '-') (pSeq (pCount isDigit 2)
    (pSeq (pChar '-') (pSeq (pCount isDigit 2) (pSeq (pPlus isJsSpace)
      (pSeq (pCount isDigit 2) (pSeq (pChar ':') (pSeq (pCount isDigit 2)
        (pSeq (pChar ':') (pCount isDigit 2))))))))))

/-- Source pattern 1:
`^(\d{4}-\d{2}-\d{2}T\d{2}:\d{2}:\d{2}(?:\.\d+)?(?:Z|[+-]\d{2}:\d{2})?)`. -/
def tsPattern1 : PMatch :=
  pSeq (pCount isDigit 4) (pSeq (pChar '-') (pSeq (pCount isDigit 2)
    (pSeq (pChar '-') (pSeq (pCount isDigit 2) (pSeq (pChar 'T')
      (pSeq (pCount isDigit 2) (pSeq (pChar ':') (pSeq (pCount isDigit 2)
        (pSeq (pChar ':') (pSeq (pCount isDigit 2)
          (pSeq (pOpt (pSeq (pChar '.') (pPlus isDigit)))
            (pOpt (pAlt (pChar 'Z')
              (pSeq (pAlt (pChar '+') (pChar '-'))
                (pSeq (pCount isDigit 2)
                  (pSeq (pChar ':') (pCount isDigit 2)))))))))))))))))

/-- Source pattern 2: `^(\d{4}-\d{2}-\d{2}\s+\d{2}:\d{2}:\d{2}(?:\.\d+)?)`. -/
def tsPattern2 : PMatch :=
  pSeq dateTimePat (pOpt (pSeq (pChar '.') (pPlus isDigit)))

/-- Source pattern 3: `^(\d{4}-\d{2}-\d{2}\s+\d{2}:\d{2}:\d{2},\d+)`. -/
def tsPattern3 : PMatch :=
  pSeq dateTimePat (pSeq (pChar ',') (pPlus isDigit))

/-- Source pattern 4: `^([A-Z][a-z]{2}\s+\d{1,2}\s+\d{2}:\d{2}:\d{2})/i`. -/
def tsPattern4 : PMatch :=
  pSeq (pPred isAsciiLetter) (pSeq (pCount isAsciiLetter 2)
    (pSeq (pPlus isJsSpace) (pSeq (pOneOrTwo isDigit)
      (pSeq (pPlus isJsSpace) (pSeq (pCount isDigit 2)
        (pSeq (pChar ':') (pSeq (pCount isDigit 2)
          (pSeq (pChar ':') (pCount isDigit 2)))))))))

/-- The default template's timestamp loop: try the four patterns in source
order, first match wins.  In each pattern the capture group is the whole
match, so the consumed prefix is both `match[0]` and `match[1]`. -/
def defaultTs (line : JSString) : Option (JSString × JSString) :=
  pAlt tsPattern1 (pAlt tsPattern2 (pAlt tsPattern3 tsPattern4)) line

/-- The `level` union of the source's `LogEntry`. -/
inductive Level where
  | error
  | warning
  | info
  | debug
deriving DecidableEq

/-- The source's `LogEntry` interface. -/
structure LogEntry where
  timestamp : Option JSString
  level : Level
  message : JSString
  lineNumber : Nat
  raw : JSString
deriving DecidableEq

/-- The source's `LogTemplate` union. -/
inductive LogTemplate where
  | default
  | laravel
  | fastapi
deriving DecidableEq

/-- Level inference of the default parser: case-insensitive substring search
on the whole original line, in the source's priority order. -/
def inferLevelDefault (line : JSString) : Level :=
  let lowerLine := toLowerStr line
  if includesSub lowerLine ("error".toList) || includesSub lowerLine ("exception".toList)
      || includesSub lowerLine ("fatal".toList) || includesSub lowerLine ("critical".toList) then
    .error
  else if includesSub lowerLine ("warn".toList) || includesSub lowerLine ("warning".toList) then
    .warning
  else if includesSub lowerLine ("debug".toList) || includesSub lowerLine ("trace".toList) then
    .debug
  else
    .info

/-- `logParsers.default`.  `message` is `line.slice(match[0].length).trim()`,
i.e. the trimmed remainder after the matched prefix; the initial entry
(no match) keeps the full line as message. -/
def parseDefault (line : JSString) (lineNumber : Nat) : LogEntry :=
  { timestamp := (defaultTs line).map Prod.fst
    level := inferLevelDefault line
    message :=
      match defaultTs line with
      | some m => jsTrim m.2
      | none => line
    lineNumber := lineNumber
    raw := line }

/-- The laravel pattern
`^\[(\d{4}-\d{2}-\d{2}\s+\d{2}:\d{2}:\d{2})\]\s+\w+\.(\w+):\s*(.*)$`,
returning `(timestamp, levelStr, message)` on a match.  Every quantified
class (`\s+`, `\w+`, `\s*`) is disjoint from the atom that follows it, so
greedy deterministic matching agrees with JS. -/
def laravelMatch (line : JSString) : Option (JSString × JSString × JSString) := do
  let (_, r1) ← pChar '[' line
  let (ts, r2) ← dateTimePat r1
  let (_, r3) ← pChar ']' r2
  let (_, r4) ← pPlus isJsSpace r3
  let (_, r5) ← pPlus isWordChar r4
  let (_, r6) ← pChar '.' r5
  let (lvl, r7) ← pPlus isWordChar r6
  let (_, r8) ← pChar ':' r7
  pure (ts, lvl, r8.dropWhile isJsSpace)

/-- The laravel severity map (input already lower-cased). -/
def laravelLevel (levelStr : JSString) : Level :=
  if levelStr = "emergency".toList || levelStr = "alert".toList
      || levelStr = "critical".toList || levelStr = "error".toList then .error
  else if levelStr = "warning".toList then .warning
  else if levelStr = "notice".toList || levelStr = "info".toList then .info
  else if levelStr = "debug".toList then .debug
  else .info

/-- Regex `^\s*#\d+` (jsTest of the laravel stack-trace fallback). -/
def stackFramePat (line : JSString) : Bool :=
  match line.dropWhile isJsSpace with
  | c :: rest => c = '#' && !(rest.takeWhile isDigit).isEmpty
  | [] => false

/-- Level of the laravel fallback branch (pattern did not match). -/
def laravelFallbackLevel (line : JSString) : Level :=
  let lowerLine := toLowerStr line
  if includesSub lowerLine ("exception".toList) || includesSub lowerLine ("error".toList)
      || includesSub lowerLine ("fatal".toList) then .error
  else if includesSub lowerLine ("#".toList) && stackFramePat line then .error
  else .info

/-- `logParsers.laravel`. -/
def parseLaravel (line : JSString) (lineNumber : Nat) : LogEntry :=
  { timestamp := (laravelMatch line).map Prod.fst
    level :=
      match laravelMatch line with
      | some m => laravelLevel (toLowerStr m.2.1)
      | none => laravelFallbackLevel line
    message :=
      match laravelMatch line with
      | some m => m.2.2
      | none => line
    lineNumber := lineNumber
    raw := line }

/-- Case-insensitive literal matcher (for the `/i` level alternations);
returns the original consumed text. -/
def matchCaseless : JSString → PMatch
  | [], s => some ([], s)
  | c :: cs, s =>
    match s with
    | [] => none
    | d :: ds =>
      if Char.toLower d = Char.toLower c then
        match matchCaseless cs ds with
        | some (m, r) => some (d :: m, r)
        | none => none
      else none

/-- The `(INFO|WARNING|ERROR|DEBUG|CRITICAL)` alternation, source order,
case-insensitive.  No alternative is a prefix of another, so first-wins
deterministic choice agrees with JS. -/
def levelAlt : PMatch :=
  pAlt (matchCaseless ("INFO".toList))
    (pAlt (matchCaseless ("WARNING".toList))
      (pAlt (matchCaseless ("ERROR".toList))
        (pAlt (matchCaseless ("DEBUG".toList)) (matchCaseless ("CRITICAL".toList)))))

/-- The uvicorn/python severity switch shared verbatim by the first two
fastapi branches (input already lower-cased): error|critical map to error. -/
def severityLevel (levelStr : JSString) : Level :=
  if levelStr = "error".toList || levelStr = "critical".toList then .error
  else if levelStr = "warning".toList then .warning
  else if levelStr = "debug".toList then .debug
  else .info

/-- The uvicorn simple pattern `^(INFO|WARNING|ERROR|DEBUG|CRITICAL):\s+(.*)$/i`,
returning `(levelStr, message)`. -/
def uvicornMatch (line : JSString) : Option (JSString × JSString) := do
  let (lvl, r1) ← levelAlt line
  let (_, r2) ← pChar ':' r1
  let (_, r3) ← pPlus isJsSpace r2
  pure (lvl, r3)

/-- The python-logging pattern
`^(\d{4}-\d{2}-\d{2}\s+\d{2}:\d{2}:\d{2},\d+)\s+-\s+[\w.]+\s+-\s+(LEVELS)\s+-\s+(.*)$/i`,
returning `(timestamp, levelStr, message)`.  All quantified classes are
disjoint from their following atoms, so deterministic greed agrees with JS. -/
def pythonLoggingMatch (line : JSString) : Option (JSString × JSString × JSString) := do
  let (ts, r1) ← tsPattern3 line
  let (_, r2) ← pPlus isJsSpace r1
  let (_, r3) ← pChar '-' r2
  let (_, r4) ← pPlus isJsSpace r3
  let (_, r5) ← pPlus isLoggerChar r4
  let (_, r6) ← pPlus isJsSpace r5
  let (_, r7) ← pChar '-' r6
  let (_, r8) ← pPlus isJsSpace r7
  let (lvl, r9) ← levelAlt r8
  let (_, r10) ← pPlus isJsSpace r9
  let (_, r11) ← pChar '-' r10
  let (_, r12) ← pPlus isJsSpace r11
  pure (ts, lvl, r12)

/-- The string-valued fields the fastapi JSON branch reads from a parsed
JSON object (`none` = field absent; `some []` = present but empty, which is
falsy for JS `||`). -/
structure JsonFields where
  timestamp : Option JSString
  time : Option JSString
  asctime : Option JSString
  message : Option JSString
  msg : Option JSString
  event : Option JSString
  level : Option JSString
  levelname : Option JSString

/-- `JSON.parse` oracle: `none` models a thrown parse error (caught by the
source and falling through to the next branch). -/
def JsonParse := JSString → Option JsonFields

/-- JS `a || b || c || ...`: first truthy (non-empty) string, else nothing. -/
def firstTruthy : List (Option JSString) → Option JSString
  | [] => none
  | a :: rest =>
    match a with
    | some s => if s.isEmpty then firstTruthy rest else some s
    | none => firstTruthy rest

/-- The JSON branch severity switch (adds fatal and warn to the map). -/
def jsonLevel (levelStr : JSString) : Level :=
  if levelStr = "error".toList || levelStr = "critical".toList
      || levelStr = "fatal".toList then .error
  else if levelStr = "warning".toList || levelStr = "warn".toList then .warning
  else if levelStr = "debug".toList then .debug
  else .info

/-- Level of the fastapi content fallback branch. -/
def fastapiFallbackLevel (line : JSString) : Level :=
  let lowerLine := toLowerStr line
  if includesSub lowerLine ("error".toList) || includesSub lowerLine ("exception".toList)
      || includesSub lowerLine ("traceback".toList) then .error
  else if includesSub lowerLine ("warning".toList) then .warning
  else if includesSub lowerLine ("debug".toList) then .debug
  else .info

/-- The fastapi fallback entry (no structured pattern recognized). -/
def fastapiFallbackEntry (line : JSString) (lineNumber : Nat) : LogEntry :=
  ⟨none, fastapiFallbackLevel line, line, lineNumber, line⟩

/-- `logParsers.fastapi`: uvicorn simple form, then python-logging form,
then JSON (only attempted between braces; a parse error falls through),
then the substring fallback. -/
def parseFastapi (jp : JsonParse) (line : JSString) (lineNumber : Nat) : LogEntry :=
  match uvicornMatch line with
  | some m => ⟨none, severityLevel (toLowerStr m.1), m.2, lineNumber, line⟩
  | none =>
    match pythonLoggingMatch line with
    | some m => ⟨some m.1, severityLevel (toLowerStr m.2.1), m.2.2, lineNumber, line⟩
    | none =>
      if startsWithChar '{' line && endsWithChar '}' line then
        match jp line with
        | some j =>
          ⟨firstTruthy [j.timestamp, j.time, j.asctime],
            jsonLevel (toLowerStr ((firstTruthy [j.level, j.levelname]).getD ("info".toList))),
            (firstTruthy [j.message, j.msg, j.event]).getD line,
            lineNumber, line⟩
        | none => fastapiFallbackEntry line lineNumber
      else fastapiFallbackEntry line lineNumber

/-- `parseLogLine`: dispatch on the template.  The source's
`logParsers[template] || logParsers.default` lookup always succeeds because
the template type is closed; the function is total (never throws). -/
def parseLogLine (jp : JsonParse) (line : JSString) (lineNumber : Nat)
    (template : LogTemplate) : LogEntry :=
  match template with
  | .default => parseDefault line lineNumber
  | .laravel => parseLaravel line lineNumber
  | .fastapi => parseFastapi jp line lineNumber

/-- The `level` option: a concrete level or the pass-through value `all`. -/
inductive LevelFilter where
  | all
  | only (l : Level)
deriving DecidableEq

/-- `if (level !== 'all' && entry.level !== level) continue`. -/
def passesLevel (lf : LevelFilter) (lvl : Level) : Bool :=
  match lf with
  | .all => true
  | .only x => decide (lvl = x)

/-- `if (search && !line.toLowerCase().includes(search.toLowerCase())) continue`:
case-insensitive substring search on the raw line (an absent search — and the
JS-falsy empty search string — passes everything). -/
def passesSearch (search : Option JSString) (line : JSString) : Bool :=
  match search with
  | none => true
  | some s => includesSub (toLowerStr line) (toLowerStr s)

/-- The date-range block: only applied when the entry has a timestamp;
`dLt t d` and `dGt t d` are the oracles for `new Date(t) < d` and
`new Date(t) > d`. -/
def passesDateFilter {JsDate : Type} (dLt dGt : JSString → JsDate → Bool)
    (startDate endDate : Option JsDate) (ts : Option JSString) : Bool :=
  match ts with
  | none => true
  | some t =>
    !(match startDate with | some d => dLt t d | none => false) &&
    !(match endDate with | some d => dGt t d | none => false)

/-- The three `continue` filters of both read loops, in source order. -/
def passesFilters {JsDate : Type} (dLt dGt : JSString → JsDate → Bool)
    (lf : LevelFilter) (search : Option JSString) (startDate endDate : Option JsDate)
    (line : JSString) (e : LogEntry) : Bool :=
  passesLevel lf e.level && passesSearch search line &&
    passesDateFilter dLt dGt startDate endDate e.timestamp

/-- The file system: `fs.existsSync` is `(fs path).isSome` and
`fs.readFileSync` is the contents.  `none` also models a read failure,
which every operation catches and maps to the same empty result as a
missing file. -/
def FileSystem := String → Option JSString

/-- `ReadLogOptions` (defaults of the source: startLine 0, maxLines 500,
level all, template default, everything else absent). -/
structure ReadLogOptions (JsDate : Type) where
  startLine : Nat
  maxLines : Nat
  search : Option JSString
  level : LevelFilter
  startDate : Option JsDate
  endDate : Option JsDate
  template : LogTemplate

/-- The result shape of `readLogFile`. -/
structure ReadLogResult where
  entries : List LogEntry
  totalLines : Nat
  hasMore : Bool
deriving DecidableEq

/-- The forward scan loop of `readLogFile`: `i` is the 0-based index of the
next line, `budget` the remaining `maxLines - processedCount`; blank lines
are skipped, filtered-out lines advance the scan without consuming budget. -/
def forwardScan (pf : JSString → Nat → LogEntry) (f : JSString → LogEntry → Bool) :
    Nat → Nat → List JSString → List LogEntry
  | _, _, [] => []
  | budget, i, line :: rest =>
    if budget = 0 then []
    else if (jsTrim line).isEmpty then forwardScan pf f budget (i + 1) rest
    else
      let e := pf line (i + 1)
      if f line e then e :: forwardScan pf f (budget - 1) (i + 1) rest
      else forwardScan pf f budget (i + 1) rest

/-- `readLogFile`: `totalLines` is `lines.length` — the number of
newline-split segments, blank segments included — and `hasMore` is
`startLine + processedCount < totalLines`, where `processedCount` is the
number of collected entries. -/
def readLogFile (jp : JsonParse) {JsDate : Type} (dLt dGt : JSString → JsDate → Bool)
    (fs : FileSystem) (path : String) (opts : ReadLogOptions JsDate) : ReadLogResult :=
  match fs path with
  | none => ⟨[], 0, false⟩
  | some content =>
    let lines := splitLines content
    let entries := forwardScan (fun l n => parseLogLine jp l n opts.template)
      (passesFilters dLt dGt opts.level opts.search opts.startDate opts.endDate)
      opts.maxLines opts.startLine (lines.drop opts.startLine)
    ⟨entries, lines.length, decide (opts.startLine + entries.length < lines.length)⟩

/-- The result shape of `checkNewLogs` (`entries` only present when fetched). -/
structure NewLogsResult where
  newCount : Nat
  totalLines : Nat
  entries : Option (List LogEntry)
deriving DecidableEq

/-- The fetch loop of `checkNewLogs`: `lineIndex` counts the non-empty lines
(1-based), and lines with `lineIndex > lastLineNumber` are parsed **with
`lineIndex` as their line number**. -/
def fetchNewEntries (jp : JsonParse) (template : LogTemplate) (lastLineNumber : Nat)
    (nonEmptyLines : List JSString) : List LogEntry :=
  nonEmptyLines.enum.filterMap fun p =>
    if lastLineNumber < p.1 + 1 then some (parseLogLine jp p.2 (p.1 + 1) template)
    else none

/-- `checkNewLogs`: `totalLines` is the non-empty-line count and
`newCount = max(0, totalLines - lastLineNumber)` (truncated subtraction). -/
def checkNewLogs (jp : JsonParse) (fs : FileSystem) (path : String)
    (lastLineNumber : Nat) (fetchEntries : Bool) (template : LogTemplate) : NewLogsResult :=
  match fs path with
  | none => ⟨0, 0, none⟩
  | some content =>
    let nonEmptyLines := (splitLines content).filter (fun l => !(jsTrim l).isEmpty)
    let totalLines := nonEmptyLines.length
    let newCount := totalLines - lastLineNumber
    if !fetchEntries || newCount = 0 then ⟨newCount, totalLines, none⟩
    else ⟨newCount, totalLines, some (fetchNewEntries jp template lastLineNumber nonEmptyLines)⟩

/-- `ReadLogFromEndOptions` (defaults: limit 500, level all, template
default, everything else absent). -/
structure ReadLogFromEndOptions (JsDate : Type) where
  limit : Nat
  beforeLine : Option Nat
  search : Option JSString
  level : LevelFilter
  startDate : Option JsDate
  endDate : Option JsDate
  template : LogTemplate

/-- The result shape of `readLogFileFromEnd`. -/
structure ReadLogFromEndResult where
  entries : List LogEntry
  totalLines : Nat
  hasMore : Bool
  oldestLineLoaded : Nat
  newestLineLoaded : Nat
deriving DecidableEq

/-- The empty result returned for a missing file, a read failure, or a file
with no non-empty line. -/
def ReadLogFromEndResult.empty : ReadLogFromEndResult := ⟨[], 0, false, 0, 0⟩

/-- The index of non-empty lines with their original 1-based line numbers
(`indexedLines` of the source): `k` is the 0-based index of the next line. -/
def indexLines (k : Nat) : List JSString → List (JSString × Nat)
  | [] => []
  | l :: rest =>
    if (jsTrim l).isEmpty then indexLines (k + 1) rest
    else (l, k + 1) :: indexLines (k + 1) rest

/-- JS `Array.prototype.findIndex`, with `none` for `-1`. -/
def jsFindIndex {α : Type} (p : α → Bool) : List α → Option Nat
  | [] => none
  | x :: xs => if p x then some 0 else (jsFindIndex p xs).map (fun n => n + 1)

/-- `endIndex` of `readLogFileFromEnd`: with `beforeLine` given, the first
index whose line number is `≥ beforeLine` (the whole index when none is). -/
def bwEndIndex (beforeLine : Option Nat) (indexedLines : List (JSString × Nat)) : Nat :=
  match beforeLine with
  | none => indexedLines.length
  | some b =>
    match jsFindIndex (fun l => decide (b ≤ l.2)) indexedLines with
    | some k => k
    | none => indexedLines.length

/-- The backward collection loop of `readLogFileFromEnd`, applied to the
scan range already reversed (most recent first); `budget` is
`limit - entries.length`. -/
def backwardScan (pf : JSString → Nat → LogEntry) (f : JSString → LogEntry → Bool) :
    Nat → List (JSString × Nat) → List LogEntry
  | _, [] => []
  | budget, (line, ln) :: rest =>
    if budget = 0 then []
    else
      let e := pf line ln
      if f line e then e :: backwardScan pf f (budget - 1) rest
      else backwardScan pf f budget rest

/-- The body of `readLogFileFromEnd` once the file contents are read.
`newestLineLoaded` is the line number of the first collected entry (the
source sets it on the first push, all line numbers being ≥ 1) and
`oldestLineLoaded` that of the last collected entry (the source overwrites
it on every push); the collected list is reversed into chronological order. -/
def backwardCore (jp : JsonParse) {JsDate : Type} (dLt dGt : JSString → JsDate → Bool)
    (opts : ReadLogFromEndOptions JsDate) (content : JSString) : ReadLogFromEndResult :=
  let indexedLines := indexLines 0 (splitLines content)
  if indexedLines.length = 0 then .empty
  else
    let collected := backwardScan (fun l n => parseLogLine jp l n opts.template)
      (passesFilters dLt dGt opts.level opts.search opts.startDate opts.endDate)
      opts.limit ((indexedLines.take (bwEndIndex opts.beforeLine indexedLines)).reverse)
    let oldestLineLoaded := match collected.getLast? with
      | some e => e.lineNumber
      | none => 0
    let newestLineLoaded := match collected.head? with
      | some e => e.lineNumber
      | none => 0
    let firstLn := match indexedLines.head? with
      | some l => l.2
      | none => 0
    ⟨collected.reverse, indexedLines.length,
      decide (1 < oldestLineLoaded) && decide (firstLn < oldestLineLoaded),
      oldestLineLoaded, newestLineLoaded⟩

/-- `readLogFileFromEnd`. -/
def readLogFileFromEnd (jp : JsonParse) {JsDate : Type} (dLt dGt : JSString → JsDate → Bool)
    (fs : FileSystem) (path : String) (opts : ReadLogFromEndOptions JsDate) :
    ReadLogFromEndResult :=
  match fs path with
  | none => .empty
  | some content => backwardCore jp dLt dGt opts content

/-- The line number of the first indexed (non-empty) line of a file
(0 when there is none). -/
def firstIndexedLn (content : JSString) : Nat :=
  match (indexLines 0 (splitLines content)).head? with
  | some l => l.2
  | none => 0

/-- The number of non-empty lines of a file. -/
def nonEmptyLineCount (content : JSString) : Nat :=
  ((splitLines content).filter (fun l => !(jsTrim l).isEmpty)).length

/-- The trivial JSON oracle used for concrete inputs that never reach the
JSON branch. -/
def jp0 : JsonParse := fun _ => none

/-- A concrete date-comparison oracle for witnesses. -/
def dFalse : JSString → Unit → Bool := fun _ _ => false

/-- Source defaults of `ReadLogOptions` over the trivial date type. -/
def defaultReadLogOptions : ReadLogOptions Unit :=
  ⟨0, 500, none, .all, none, none, .default⟩

/-- Source defaults of `ReadLogFromEndOptions` over the trivial date type. -/
def defaultEndOptions : ReadLogFromEndOptions Unit :=
  ⟨500, none, none, .all, none, none, .default⟩

/-! ## Helper lemmas -/

theorem parseDefault_raw (line : JSString) (n : Nat) : (parseDefault line n).raw = line := rfl

theorem parseLaravel_raw (line : JSString) (n : Nat) : (parseLaravel line n).raw = line := rfl

theorem parseFastapi_raw (jp : JsonParse) (line : JSString) (n : Nat) :
    (parseFastapi jp line n).raw = line := by
  unfold parseFastapi fastapiFallbackEntry
  repeat' split
  all_goals rfl

/-- Every parser copies the raw line into `raw` unchanged. -/
theorem parseLogLine_raw (jp : JsonParse) (line : JSString) (n : Nat) (t : LogTemplate) :
    (parseLogLine jp line n t).raw = line := by
  cases t
  · exact parseDefault_raw line n
  · exact parseLaravel_raw line n
  · exact parseFastapi_raw jp line n

theorem parseFastapi_lineNumber (jp : JsonParse) (line : JSString) (n : Nat) :
    (parseFastapi jp line n).lineNumber = n := by
  unfold parseFastapi fastapiFallbackEntry
  repeat' split
  all_goals rfl

/-- Every parser stores the supplied line number unchanged. -/
theorem parseLogLine_lineNumber (jp : JsonParse) (line : JSString) (n : Nat) (t : LogTemplate) :
    (parseLogLine jp line n t).lineNumber = n := by
  cases t
  · rfl
  · rfl
  · exact parseFastapi_lineNumber jp line n

/-- With no bounds the date filter passes everything. -/
theorem passesDateFilter_none_none {JsDate : Type} (dLt dGt : JSString → JsDate → Bool)
    (ts : Option JSString) : passesDateFilter dLt dGt none none ts = true := by
  cases ts <;> rfl

/-- A timestamp-less entry passes the date filter whatever the bounds. -/
theorem passesDateFilter_of_ts_none {JsDate : Type} (dLt dGt : JSString → JsDate → Bool)
    (startDate endDate : Option JsDate) :
    passesDateFilter dLt dGt startDate endDate none = true := rfl

/-- A scan over blank lines collects nothing. -/
theorem forwardScan_of_blank (pf : JSString → Nat → LogEntry) (f : JSString → LogEntry → Bool) :
    ∀ (ls : List JSString) (b i : Nat), (∀ l ∈ ls, (jsTrim l).isEmpty = true) →
      forwardScan pf f b i ls = [] := by
  intro ls
  induction ls with
  | nil => intro b i _; rfl
  | cons l rest ih =>
    intro b i h
    by_cases hb : b = 0
    · simp [forwardScan, hb]
    · have hl : (jsTrim l).isEmpty = true := h l (List.mem_cons_self l rest)
      simp only [forwardScan, hb, if_false, hl, if_true]
      exact ih b (i + 1) fun x hx => h x (List.mem_cons_of_mem l hx)

/-- Indexing a run of blank lines yields the empty index. -/
theorem indexLines_of_blank :
    ∀ (ls : List JSString) (k : Nat), (∀ l ∈ ls, (jsTrim l).isEmpty = true) →
      indexLines k ls = [] := by
  intro ls
  induction ls with
  | nil => intro k _; rfl
  | cons l rest ih =>
    intro k h
    have hl : (jsTrim l).isEmpty = true := h l (List.mem_cons_self l rest)
    simp only [indexLines, hl, if_true]
    exact ih (k + 1) fun x hx => h x (List.mem_cons_of_mem l hx)

/-- Every indexed line number exceeds the starting index. -/
theorem indexLines_one_le :
    ∀ (ls : List JSString) (k : Nat) (p : JSString × Nat),
      p ∈ indexLines k ls → k + 1 ≤ p.2 := by
  intro ls
  induction ls with
  | nil => intro k p hp; simp [indexLines] at hp
  | cons l rest ih =>
    intro k p hp
    by_cases hl : (jsTrim l).isEmpty = true
    · simp only [indexLines, hl, if_true] at hp
      have := ih (k + 1) p hp
      omega
    · simp only [indexLines, hl, if_false] at hp
      rcases List.mem_cons.mp hp with h1 | h2
      · subst h1; exact Nat.le_refl _
      · have := ih (k + 1) p h2
        omega

/-- The head of the index carries the smallest line number in it. -/
theorem indexLines_head_min :
    ∀ (ls : List JSString) (k : Nat) (q : JSString × Nat),
      (indexLines k ls).head? = some q →
      ∀ p ∈ indexLines k ls, q.2 ≤ p.2 := by
  intro ls
  induction ls with
  | nil => intro k q hq; simp [indexLines] at hq
  | cons l rest ih =>
    intro k q hq p hp
    by_cases hl : (jsTrim l).isEmpty = true
    · simp only [indexLines, hl, if_true] at hq hp
      exact ih (k + 1) q hq p hp
    · simp only [indexLines, hl, if_false, List.head?_cons] at hq hp
      have hq2 : q.2 = k + 1 := by
        cases hq
        rfl
      rcases List.mem_cons.mp hp with h1 | h2
      · subst h1
        omega
      · have := indexLines_one_le rest (k + 1) p h2
        omega

/-- Every line number appearing in the backward collection is a line number
of the scanned range. -/
theorem backwardScan_mem_ln (pf : JSString → Nat → LogEntry) (f : JSString → LogEntry → Bool)
    (hpf : ∀ l n, (pf l n).lineNumber = n) :
    ∀ (ls : List (JSString × Nat)) (b : Nat) (e : LogEntry),
      e ∈ backwardScan pf f b ls → e.lineNumber ∈ ls.map Prod.snd := by
  intro ls
  induction ls with
  | nil => intro b e he; simp [backwardScan] at he
  | cons p rest ih =>
    obtain ⟨line, ln⟩ := p
    intro b e he
    by_cases hb : b = 0
    · simp [backwardScan, hb] at he
    · simp only [backwardScan, hb, if_false] at he
      by_cases hf : f line (pf line ln) = true
      · simp only [hf, if_true] at he
        rcases List.mem_cons.mp he with h1 | h2
        · subst h1
          simp [hpf]
        · simp only [List.map_cons, List.mem_cons]
          exact Or.inr (ih (b - 1) e h2)
      · simp only [hf, if_false] at he
        simp only [List.map_cons, List.mem_cons]
        exact Or.inr (ih b e he)

/-- Dropping the date bounds weakens the filter. -/
theorem passesFilters_drop_dates {JsDate : Type} (dLt dGt : JSString → JsDate → Bool)
    (lf : LevelFilter) (srch : Option JSString) (sd ed : Option JsDate)
    (l : JSString) (e : LogEntry)
    (h : passesFilters dLt dGt lf srch sd ed l e = true) :
    passesFilters dLt dGt lf srch none none l e = true := by
  unfold passesFilters at h ⊢
  rw [passesDateFilter_none_none]
  simp only [Bool.and_eq_true] at h ⊢
  exact ⟨h.1, trivial⟩

/-- On a timestamp-less entry the filter does not depend on the date bounds. -/
theorem passesFilters_ts_none {JsDate : Type} (dLt dGt : JSString → JsDate → Bool)
    (lf : LevelFilter) (srch : Option JSString) (sd ed : Option JsDate)
    (l : JSString) (e : LogEntry) (h : e.timestamp = none) :
    passesFilters dLt dGt lf srch none none l e = passesFilters dLt dGt lf srch sd ed l e := by
  unfold passesFilters
  rw [h, passesDateFilter_of_ts_none, passesDateFilter_of_ts_none]

/-- A forward scan under a weaker filter, run with no larger a budget,
collects every timestamp-insensitive entry the stronger-filter scan would:
specialized below to dropping the date bounds and entries without a
timestamp. -/
theorem forwardScan_mono (pf : JSString → Nat → LogEntry) (f g : JSString → LogEntry → Bool)
    (hgf : ∀ l e, g l e = true → f l e = true)
    (hts : ∀ l e, e.timestamp = none → f l e = g l e) :
    ∀ (ls : List JSString) (i b1 b2 : Nat), b1 ≤ b2 →
      ∀ e ∈ forwardScan pf f b1 i ls, e.timestamp = none →
        e ∈ forwardScan pf g b2 i ls := by
  intro ls
  induction ls with
  | nil => intro i b1 b2 _ e he; simp [forwardScan] at he
  | cons l rest ih =>
    intro i b1 b2 hb e he hets
    by_cases hb1 : b1 = 0
    · simp [forwardScan, hb1] at he
    · have hb2 : ¬b2 = 0 := by omega
      by_cases hblank : (jsTrim l).isEmpty = true
      · simp only [forwardScan, hb1, hb2, if_false, hblank, if_true] at he ⊢
        exact ih (i + 1) b1 b2 hb e he hets
      · simp only [forwardScan, hb1, hb2, if_false, hblank] at he ⊢
        by_cases hf : f l (pf l (i + 1)) = true
        · rw [if_pos hf] at he
          rcases List.mem_cons.mp he with h1 | h2
          · subst h1
            have hg : g l (pf l (i + 1)) = true := by
              rw [← hts l (pf l (i + 1)) hets]
              exact hf
            rw [if_pos hg]
            exact List.mem_cons_self _ _
          · by_cases hg : g l (pf l (i + 1)) = true
            · rw [if_pos hg]
              exact List.mem_cons_of_mem _ (ih (i + 1) (b1 - 1) (b2 - 1) (by omega) e h2 hets)
            · rw [if_neg hg]
              exact ih (i + 1) (b1 - 1) b2 (by omega) e h2 hets
        · have hg : ¬g l (pf l (i + 1)) = true := fun hcon => hf (hgf l _ hcon)
          rw [if_neg hf] at he
          rw [if_neg hg]
          exact ih (i + 1) b1 b2 hb e he hets

/-- The backward-scan analogue of `forwardScan_mono`. -/
theorem backwardScan_mono (pf : JSString → Nat → LogEntry) (f g : JSString → LogEntry → Bool)
    (hgf : ∀ l e, g l e = true → f l e = true)
    (hts : ∀ l e, e.timestamp = none → f l e = g l e) :
    ∀ (ls : List (JSString × Nat)) (b1 b2 : Nat), b1 ≤ b2 →
      ∀ e ∈ backwardScan pf f b1 ls, e.timestamp = none →
        e ∈ backwardScan pf g b2 ls := by
  intro ls
  induction ls with
  | nil => intro b1 b2 _ e he; simp [backwardScan] at he
  | cons p rest ih =>
    obtain ⟨line, ln⟩ := p
    intro b1 b2 hb e he hets
    by_cases hb1 : b1 = 0
    · simp [backwardScan, hb1] at he
    · have hb2 : ¬b2 = 0 := by omega
      simp only [backwardScan, hb1, hb2, if_false] at he ⊢
      by_cases hf : f line (pf line ln) = true
      · rw [if_pos hf] at he
        rcases List.mem_cons.mp he with h1 | h2
        · subst h1
          have hg : g line (pf line ln) = true := by
            rw [← hts line (pf line ln) hets]
            exact hf
          rw [if_pos hg]
          exact List.mem_cons_self _ _
        · by_cases hg : g line (pf line ln) = true
          · rw [if_pos hg]
            exact List.mem_cons_of_mem _ (ih (b1 - 1) (b2 - 1) (by omega) e h2 hets)
          · rw [if_neg hg]
            exact ih (b1 - 1) b2 (by omega) e h2 hets
      · have hg : ¬g line (pf line ln) = true := fun hcon => hf (hgf line _ hcon)
        rw [if_neg hf] at he
        rw [if_neg hg]
        exact ih b1 b2 hb e he hets

/-! ## Claims -/

/-- Claim C1 (code bug): `checkNewLogs` numbers the fetched entries by their
ordinal among the non-empty lines, not by their position among all lines.
On the file `"a\n\nb"` with `lastLineNumber = 1` it returns the entry for
the line `"b"` with `lineNumber = 2`, although that line is the third of
the three newline-split lines, and `readLogFileFromEnd` on the same file
numbers the same two non-empty lines `[1, 3]`. -/
theorem C1_checkNewLogs_numbering_bug :
    ((checkNewLogs jp0 (fun _ => some ("a\n\nb".toList)) "app.log" 1 true
        .default).entries.getD []).map LogEntry.lineNumber = [2] ∧
    splitLines ("a\n\nb".toList) = ["a".toList, [], "b".toList] ∧
    (readLogFileFromEnd jp0 dFalse dFalse (fun _ => some ("a\n\nb".toList)) "app.log"
        defaultEndOptions).entries.map LogEntry.lineNumber = [1, 3] := by
  decide

/-- Claim C2, counterexample: on
`2024-12-10 08:00:01,234 ERROR something broke` the default template does
not return timestamp `"2024-12-10 08:00:01,234"` with message
`"something broke"` — the bare `YYYY-MM-DD HH:MM:SS` pattern is tried
before the comma-milliseconds one and wins. -/
theorem C2_counterexample :
    ¬((parseLogLine jp0 ("2024-12-10 08:00:01,234 ERROR something broke".toList) 1
          .default).timestamp = some ("2024-12-10 08:00:01,234".toList) ∧
      (parseLogLine jp0 ("2024-12-10 08:00:01,234 ERROR something broke".toList) 1
          .default).level = Level.error ∧
      (parseLogLine jp0 ("2024-12-10 08:00:01,234 ERROR something broke".toList) 1
          .default).message = ("something broke".toList)) := by
  decide

/-- Claim C2, amended: on that line the default template returns timestamp
`"2024-12-10 08:00:01"`, level error, and message
`",234 ERROR something broke"` (the unmatched remainder, trimmed). -/
theorem C2_amended :
    parseLogLine jp0 ("2024-12-10 08:00:01,234 ERROR something broke".toList) 1 .default =
      ⟨some ("2024-12-10 08:00:01".toList), Level.error,
        (",234 ERROR something broke".toList), 1,
        ("2024-12-10 08:00:01,234 ERROR something broke".toList)⟩ := by
  decide

/-- Claim C3, counterexample: on an empty (existing) file `readLogFile`
returns `totalLines = 1` (the single empty split segment) and
`hasMore = true`, not `totalLines = 0`, `hasMore = false`. -/
theorem C3_counterexample :
    (readLogFile jp0 dFalse dFalse (fun _ => some []) "app.log"
        defaultReadLogOptions).totalLines = 1 ∧
    (readLogFile jp0 dFalse dFalse (fun _ => some []) "app.log"
        defaultReadLogOptions).hasMore = true := by
  decide

/-- Claim C3, amended: on a file whose every split line is blank,
`readLogFileFromEnd` does return the all-empty result, but `readLogFile`
returns `entries = []` with `totalLines` equal to the number of
newline-split segments (at least 1) and `hasMore = true` exactly when
`startLine` is less than that count. -/
theorem C3_amended (jp : JsonParse) {JsDate : Type} (dLt dGt : JSString → JsDate → Bool)
    (fs : FileSystem) (path : String) (content : JSString)
    (opts : ReadLogOptions JsDate) (opts2 : ReadLogFromEndOptions JsDate)
    (h : fs path = some content)
    (hall : ∀ l ∈ splitLines content, (jsTrim l).isEmpty = true) :
    readLogFileFromEnd jp dLt dGt fs path opts2 = ReadLogFromEndResult.empty ∧
    (readLogFile jp dLt dGt fs path opts).entries = [] ∧
    (readLogFile jp dLt dGt fs path opts).totalLines = (splitLines content).length ∧
    ((readLogFile jp dLt dGt fs path opts).hasMore = true ↔
      opts.startLine < (splitLines content).length) := by
  have hidx : indexLines 0 (splitLines content) = [] :=
    indexLines_of_blank (splitLines content) 0 hall
  have hscan : forwardScan (fun l n => parseLogLine jp l n opts.template)
      (passesFilters dLt dGt opts.level opts.search opts.startDate opts.endDate)
      opts.maxLines opts.startLine ((splitLines content).drop opts.startLine) = [] :=
    forwardScan_of_blank _ _ _ _ _
      (fun x hx => hall x (List.drop_subset opts.startLine (splitLines content) hx))
  refine ⟨?_, ?_, ?_, ?_⟩
  · simp [readLogFileFromEnd, h, backwardCore, hidx]
  · simp [readLogFile, h, hscan]
  · simp [readLogFile, h, hscan]
  · simp [readLogFile, h, hscan]

/-- Claim C3, witness at the empty file. -/
theorem C3_witness :
    readLogFileFromEnd jp0 dFalse dFalse (fun _ => some []) "app.log" defaultEndOptions =
      ReadLogFromEndResult.empty ∧
    (readLogFile jp0 dFalse dFalse (fun _ => some []) "app.log"
        defaultReadLogOptions).entries = [] ∧
    (readLogFile jp0 dFalse dFalse (fun _ => some []) "app.log"
        defaultReadLogOptions).totalLines = (splitLines []).length ∧
    ((readLogFile jp0 dFalse dFalse (fun _ => some []) "app.log"
        defaultReadLogOptions).hasMore = true ↔
      defaultReadLogOptions.startLine < (splitLines []).length) :=
  C3_amended jp0 dFalse dFalse (fun _ => some []) "app.log" [] defaultReadLogOptions
    defaultEndOptions rfl (by decide)

/-- Claim C5, counterexample: on the file `"a\n"` (a trailing newline) the
forward read with default options returns its only non-empty line, so no
unfiltered candidate remains past the last consumed line, yet
`hasMore = true` (the code compares `startLine + processedCount` with the
split-segment count). -/
theorem C5_counterexample :
    (readLogFile jp0 dFalse dFalse (fun _ => some ("a\n".toList)) "app.log"
        defaultReadLogOptions).hasMore = true ∧
    (readLogFile jp0 dFalse dFalse (fun _ => some ("a\n".toList)) "app.log"
        defaultReadLogOptions).entries.map LogEntry.raw = ["a".toList] ∧
    (splitLines ("a\n".toList)).filter (fun l => !(jsTrim l).isEmpty) = ["a".toList] := by
  decide

/-- Claim C5, amended: for every existing file and filter combination,
`readLogFile` reports `hasMore = true` exactly when `startLine` plus the
number of returned entries is less than the number of newline-split
segments of the file (blank segments included). -/
theorem C5_amended (jp : JsonParse) {JsDate : Type} (dLt dGt : JSString → JsDate → Bool)
    (fs : FileSystem) (path : String) (content : JSString) (opts : ReadLogOptions JsDate)
    (h : fs path = some content) :
    (readLogFile jp dLt dGt fs path opts).hasMore = true ↔
      opts.startLine + (readLogFile jp dLt dGt fs path opts).entries.length <
        (splitLines content).length := by
  simp [readLogFile, h]

/-- Claim C5, witness at the file `"a\n"` with default options. -/
theorem C5_witness :
    (readLogFile jp0 dFalse dFalse (fun _ => some ("a\n".toList)) "app.log"
        defaultReadLogOptions).hasMore = true ↔
      defaultReadLogOptions.startLine +
        (readLogFile jp0 dFalse dFalse (fun _ => some ("a\n".toList)) "app.log"
          defaultReadLogOptions).entries.length < (splitLines ("a\n".toList)).length :=
  C5_amended jp0 dFalse dFalse (fun _ => some ("a\n".toList)) "app.log" ("a\n".toList)
    defaultReadLogOptions rfl

/-- Claim C6, counterexample: two `checkNewLogs` calls with the same
`lastLineNumber = 0` on the unchanged one-line file `"a"` both return
`newCount = 1`, not 0. -/
theorem C6_counterexample :
    (checkNewLogs jp0 (fun _ => some ("a".toList)) "app.log" 0 false .default).newCount = 1 ∧
    (checkNewLogs jp0 (fun _ => some ("a".toList)) "app.log" 0 false .default).newCount ≠ 0 := by
  decide

/-- Claim C6, amended: on an unchanged file two calls with the same
`lastLineNumber` return the same result (the operation reads only the
file), and that common `newCount` is 0 exactly when `lastLineNumber` is at
least the file's non-empty-line count. -/
theorem C6_amended (jp : JsonParse) (fs : FileSystem) (path : String)
    (lastLineNumber : Nat) (fetchEntries : Bool) (template : LogTemplate)
    (content : JSString) (h : fs path = some content) :
    (checkNewLogs jp fs path lastLineNumber fetchEntries template).newCount = 0 ↔
      nonEmptyLineCount content ≤ lastLineNumber := by
  simp only [checkNewLogs, h, nonEmptyLineCount]
  split <;> simp [Nat.sub_eq_zero_iff_le]

/-- Claim C6, witness at the one-line file `"a"` with `lastLineNumber = 0`. -/
theorem C6_witness :
    (checkNewLogs jp0 (fun _ => some ("a".toList)) "app.log" 0 false .default).newCount = 0 ↔
      nonEmptyLineCount ("a".toList) ≤ 0 :=
  C6_amended jp0 (fun _ => some ("a".toList)) "app.log" 0 false .default ("a".toList) rfl

/-- Claim C7: on a missing path every operation returns its empty result
shape instead of raising. -/
theorem C7_missing_file (jp : JsonParse) {JsDate : Type}
    (dLt dGt : JSString → JsDate → Bool) (fs : FileSystem) (path : String)
    (opts : ReadLogOptions JsDate) (opts2 : ReadLogFromEndOptions JsDate)
    (lastLineNumber : Nat) (fetchEntries : Bool) (template : LogTemplate)
    (h : fs path = none) :
    readLogFile jp dLt dGt fs path opts = ⟨[], 0, false⟩ ∧
    readLogFileFromEnd jp dLt dGt fs path opts2 = ⟨[], 0, false, 0, 0⟩ ∧
    checkNewLogs jp fs path lastLineNumber fetchEntries template = ⟨0, 0, none⟩ := by
  refine ⟨?_, ?_, ?_⟩ <;> simp [readLogFile, readLogFileFromEnd, checkNewLogs, h,
    ReadLogFromEndResult.empty]

/-- Claim C7, witness at a concrete empty file system. -/
theorem C7_witness :
    readLogFile jp0 dFalse dFalse (fun _ => none) "gone.log" defaultReadLogOptions =
      ⟨[], 0, false⟩ ∧
    readLogFileFromEnd jp0 dFalse dFalse (fun _ => none) "gone.log" defaultEndOptions =
      ⟨[], 0, false, 0, 0⟩ ∧
    checkNewLogs jp0 (fun _ => none) "gone.log" 7 true .laravel = ⟨0, 0, none⟩ :=
  C7_missing_file jp0 dFalse dFalse (fun _ => none) "gone.log" defaultReadLogOptions
    defaultEndOptions 7 true .laravel rfl

/-- Claim C8: for every template and non-empty line, `parseLogLine` (a total
function — the embedding of "never throws") returns `raw` equal to the
input and a level among error, warning, info, debug. -/
theorem C8_parse_total (jp : JsonParse) (line : JSString) (n : Nat) (t : LogTemplate)
    (_h : line ≠ []) :
    (parseLogLine jp line n t).raw = line ∧
      ((parseLogLine jp line n t).level = Level.error ∨
       (parseLogLine jp line n t).level = Level.warning ∨
       (parseLogLine jp line n t).level = Level.info ∨
       (parseLogLine jp line n t).level = Level.debug) := by
  refine ⟨parseLogLine_raw jp line n t, ?_⟩
  cases (parseLogLine jp line n t).level <;> simp

/-- Claim C4: `readLogFileFromEnd` reports `hasMore = true` exactly when the
window is non-empty and its oldest loaded line is not the first indexed
(non-empty) line of the file (for an empty window there is no oldest loaded
line and `hasMore` is false). -/
theorem C4_backward_hasMore (jp : JsonParse) {JsDate : Type}
    (dLt dGt : JSString → JsDate → Bool) (fs : FileSystem) (path : String)
    (opts : ReadLogFromEndOptions JsDate) (content : JSString)
    (h : fs path = some content) :
    (readLogFileFromEnd jp dLt dGt fs path opts).hasMore = true ↔
      ((readLogFileFromEnd jp dLt dGt fs path opts).entries ≠ [] ∧
       (readLogFileFromEnd jp dLt dGt fs path opts).oldestLineLoaded ≠
         firstIndexedLn content) := by
  simp only [readLogFileFromEnd, h]
  unfold backwardCore firstIndexedLn
  by_cases h0 : (indexLines 0 (splitLines content)).length = 0
  · have hnil : indexLines 0 (splitLines content) = [] := List.length_eq_zero.mp h0
    simp [h0, hnil, ReadLogFromEndResult.empty]
  · simp only [h0, if_false]
    have hLne : indexLines 0 (splitLines content) ≠ [] := by
      intro hc
      exact h0 (by rw [hc]; rfl)
    obtain ⟨q, L2, hQ⟩ := List.exists_cons_of_ne_nil hLne
    have hhead : (indexLines 0 (splitLines content)).head? = some q := by
      rw [hQ]; rfl
    rw [hhead]
    set collected := backwardScan (fun l n => parseLogLine jp l n opts.template)
      (passesFilters dLt dGt opts.level opts.search opts.startDate opts.endDate)
      opts.limit (((indexLines 0 (splitLines content)).take
        (bwEndIndex opts.beforeLine (indexLines 0 (splitLines content)))).reverse)
      with hCol
    by_cases hc : collected = []
    · simp [hc]
    · have hgl0 : collected.getLast? = some (collected.getLast hc) :=
        List.getLast?_eq_getLast_of_ne_nil hc
      have hglmem0 : collected.getLast hc ∈ collected := List.getLast_mem hc
      generalize hg : collected.getLast hc = gl at hgl0 hglmem0
      rw [hgl0]
      dsimp only
      rw [hCol] at hglmem0
      have hln := backwardScan_mem_ln _ _
        (fun l n => parseLogLine_lineNumber jp l n opts.template) _ _ _ hglmem0
      obtain ⟨p, hpmem, hpln⟩ := List.mem_map.mp hln
      have hpL : p ∈ indexLines 0 (splitLines content) :=
        List.take_subset _ _ (List.mem_reverse.mp hpmem)
      have hq_le : q.2 ≤ p.2 := indexLines_head_min (splitLines content) 0 q hhead p hpL
      have hq_one : 1 ≤ q.2 :=
        indexLines_one_le (splitLines content) 0 q (by rw [hQ]; exact List.mem_cons_self q L2)
      rw [hpln] at hq_le
      simp only [Bool.and_eq_true, decide_eq_true_eq, ne_eq, List.reverse_eq_nil_iff, hc,
        not_false_eq_true, true_and]
      omega

/-- Claim C4, witness at the two-line file `"a\nb"` with default options. -/
theorem C4_witness :
    (readLogFileFromEnd jp0 dFalse dFalse (fun _ => some ("a\nb".toList)) "app.log"
        defaultEndOptions).hasMore = true ↔
      ((readLogFileFromEnd jp0 dFalse dFalse (fun _ => some ("a\nb".toList)) "app.log"
          defaultEndOptions).entries ≠ [] ∧
       (readLogFileFromEnd jp0 dFalse dFalse (fun _ => some ("a\nb".toList)) "app.log"
          defaultEndOptions).oldestLineLoaded ≠ firstIndexedLn ("a\nb".toList)) :=
  C4_backward_hasMore jp0 dFalse dFalse (fun _ => some ("a\nb".toList)) "app.log"
    defaultEndOptions ("a\nb".toList) rfl

/-- Claim C10: on an existing file whose first indexed line is `q`, a
backward read with `beforeLine ≤ q`'s line number returns the empty window
(`entries = []`, both cursors 0, `hasMore = false`) while still reporting
the full non-empty-line count — so feeding `oldestLineLoaded` back as
`beforeLine` terminates the infinite scroll. -/
theorem C10_before_first_empty (jp : JsonParse) {JsDate : Type}
    (dLt dGt : JSString → JsDate → Bool) (fs : FileSystem) (path : String)
    (content : JSString) (opts : ReadLogFromEndOptions JsDate) (b : Nat)
    (q : JSString × Nat) (L2 : List (JSString × Nat))
    (h : fs path = some content)
    (hq : indexLines 0 (splitLines content) = q :: L2)
    (hb : opts.beforeLine = some b) (hle : b ≤ q.2) :
    readLogFileFromEnd jp dLt dGt fs path opts = ⟨[], (q :: L2).length, false, 0, 0⟩ := by
  simp only [readLogFileFromEnd, h, backwardCore, hq, hb, bwEndIndex, jsFindIndex,
    decide_eq_true hle]
  simp [backwardScan]

/-- Claim C10, witness at the one-line file `"x"` with `beforeLine = 1`. -/
theorem C10_witness :
    readLogFileFromEnd jp0 dFalse dFalse (fun _ => some ("x".toList)) "app.log"
      ⟨500, some 1, none, .all, none, none, .default⟩ = ⟨[], 1, false, 0, 0⟩ :=
  C10_before_first_empty jp0 dFalse dFalse (fun _ => some ("x".toList)) "app.log"
    ("x".toList) ⟨500, some 1, none, .all, none, none, .default⟩ 1
    ("x".toList, 1) [] rfl (by decide) rfl (by decide)

/-- Claim C9: in both read operations an entry with no extractable
timestamp is never lost to the date-range filter — every timestamp-less
entry of the date-free run is also in the window returned under any
`startDate`/`endDate` bounds (the date filter only discards timestamped
entries, freeing budget, never consuming it). -/
theorem C9_null_timestamp_passes (jp : JsonParse) {JsDate : Type}
    (dLt dGt : JSString → JsDate → Bool) (fs : FileSystem) (path : String)
    (opts : ReadLogOptions JsDate) (opts2 : ReadLogFromEndOptions JsDate) :
    (∀ e ∈ (readLogFile jp dLt dGt fs path
        { opts with startDate := none, endDate := none }).entries,
      e.timestamp = none → e ∈ (readLogFile jp dLt dGt fs path opts).entries) ∧
    (∀ e ∈ (readLogFileFromEnd jp dLt dGt fs path
        { opts2 with startDate := none, endDate := none }).entries,
      e.timestamp = none → e ∈ (readLogFileFromEnd jp dLt dGt fs path opts2).entries) := by
  constructor
  · intro e he hets
    cases hfs : fs path with
    | none =>
      rw [readLogFile, hfs] at he
      simp at he
    | some content =>
      rw [readLogFile, hfs] at he
      rw [readLogFile, hfs]
      dsimp only at he ⊢
      exact forwardScan_mono _ _ _
        (fun l e => passesFilters_drop_dates dLt dGt opts.level opts.search
          opts.startDate opts.endDate l e)
        (fun l e h => passesFilters_ts_none dLt dGt opts.level opts.search
          opts.startDate opts.endDate l e h)
        _ _ _ _ (Nat.le_refl _) e he hets
  · intro e he hets
    cases hfs : fs path with
    | none =>
      rw [readLogFileFromEnd, hfs] at he
      simp [ReadLogFromEndResult.empty] at he
    | some content =>
      rw [readLogFileFromEnd, hfs] at he
      rw [readLogFileFromEnd, hfs]
      unfold backwardCore at he ⊢
      dsimp only at he ⊢
      by_cases h0 : (indexLines 0 (splitLines content)).length = 0
      · rw [if_pos h0] at he
        simp [ReadLogFromEndResult.empty] at he
      · rw [if_neg h0] at he
        rw [if_neg h0]
        dsimp only at he ⊢
        rw [List.mem_reverse] at he ⊢
        exact backwardScan_mono _ _ _
          (fun l e => passesFilters_drop_dates dLt dGt opts2.level opts2.search
            opts2.startDate opts2.endDate l e)
          (fun l e h => passesFilters_ts_none dLt dGt opts2.level opts2.search
            opts2.startDate opts2.endDate l e h)
          _ _ _ (Nat.le_refl _) e he hets

/-- Claim C9, witness: the timestamp-less line `hello` is returned even
under date bounds over the one-line file `"hello"`. -/
theorem C9_witness :
    parseLogLine jp0 ("hello".toList) 1 .default ∈
      (readLogFile jp0 dFalse dFalse (fun _ => some ("hello".toList)) "app.log"
        ⟨0, 500, none, .all, some (), some (), .default⟩).entries :=
  (C9_null_timestamp_passes jp0 dFalse dFalse (fun _ => some ("hello".toList)) "app.log"
      ⟨0, 500, none, .all, some (), some (), .default⟩ defaultEndOptions).1
    (parseLogLine jp0 ("hello".toList) 1 .default) (by decide) (by decide)

/-- Claim C8, witness at the one-character line `x`. -/
theorem C8_witness :
    (['x'] : JSString) ≠ [] ∧
      ((parseLogLine jp0 ['x'] 1 .default).raw = ['x'] ∧
        ((parseLogLine jp0 ['x'] 1 .default).level = Level.error ∨
         (parseLogLine jp0 ['x'] 1 .default).level = Level.warning ∨
         (parseLogLine jp0 ['x'] 1 .default).level = Level.info ∨
         (parseLogLine jp0 ['x'] 1 .default).level = Level.debug)) :=
  ⟨by decide, C8_parse_total jp0 ['x'] 1 .default (by decide)⟩

end Superlogs
